import Mathlib

/-!
Shallow embedding of `src/features/Feature_Engineering_Gold.py`.

A pandas DataFrame is modelled as a time index together with an ordered
association list of named columns; a column is a list of `Option ℚ` values,
with `none` standing for NaN.  The external `ta` indicator library is
modelled by the arithmetic each indicator computes (rolling means,
exponentially weighted means with `adjust=False` and `min_periods`, ...).
The single irrational primitive used by the volatility indicators, the
square root, is an explicit parameter `sq` of the embedding; no theorem in
this file depends on its interpretation.  Exact rational arithmetic stands
in for floating point; where Python division by zero would give an
infinity, rational division gives `0`, and no claim below observes that
difference.
-/

unseal Rat.add Rat.mul Rat.inv Rat.sub

set_option maxRecDepth 40000

namespace GoldFE

/-- A cell of a pandas column: `none` models NaN. -/
abbrev Value := Option ℚ

/-- A pandas DataFrame: a time index plus named columns in insertion order. -/
structure DataFrame where
  index : List ℤ
  cols : List (String × List Value)
deriving DecidableEq

/-- First-match lookup among the named columns. -/
def lookupC : List (String × List Value) → String → Option (List Value)
  | [], _ => none
  | (m, ys) :: rest, n => if m = n then some ys else lookupC rest n

/-- Column read `df[name]`; `none` models the KeyError on a missing column. -/
def DataFrame.getCol (df : DataFrame) (name : String) : Option (List Value) :=
  lookupC df.cols name

/-- Membership test `name in df.columns`. -/
def DataFrame.hasCol (df : DataFrame) (name : String) : Bool :=
  (df.getCol name).isSome

def setColList : List (String × List Value) → String → List Value → List (String × List Value)
  | [], n, xs => [(n, xs)]
  | (m, ys) :: rest, n, xs =>
    if m = n then (n, xs) :: rest else (m, ys) :: setColList rest n xs

/-- Column assignment `df[name] = xs`: replaces the column in place if it
exists, otherwise appends it at the end, as pandas does. -/
def DataFrame.setCol (df : DataFrame) (name : String) (xs : List Value) : DataFrame :=
  { df with cols := setColList df.cols name xs }

/-- A sequence of column assignments. -/
def setCols (df : DataFrame) : List (String × List Value) → DataFrame
  | [] => df
  | (n, xs) :: rest => setCols (df.setCol n xs) rest

def namesOf (l : List (String × List Value)) : List String := l.map Prod.fst

/-- Well-formedness: every column has exactly one value per row of the index. -/
def WF (df : DataFrame) : Prop :=
  ∀ p ∈ df.cols, p.2.length = df.index.length

instance (df : DataFrame) : Decidable (WF df) :=
  inferInstanceAs (Decidable (∀ p ∈ df.cols, p.2.length = df.index.length))

/-- Pointwise lift of a binary operation; NaN in either operand propagates,
as in pandas column arithmetic. -/
def optBin (f : ℚ → ℚ → ℚ) : Value → Value → Value
  | some a, some b => some (f a b)
  | _, _ => none

def optAdd : Value → Value → Value := optBin (· + ·)

def optSub : Value → Value → Value := optBin (· - ·)

def optDiv : Value → Value → Value := optBin (· / ·)

/-- Pointwise `<` as numpy/pandas evaluate it: any comparison with NaN is
False. -/
def optLtB : Value → Value → Bool
  | some a, some b => decide (a < b)
  | _, _ => false

/-- Pointwise `>` with NaN comparing False. -/
def optGtB (a b : Value) : Bool := optLtB b a

def zipW (f : Value → Value → Value) (xs ys : List Value) : List Value :=
  List.zipWith f xs ys

/-- Multiply a column by a scalar. -/
def scaleO (c : ℚ) (xs : List Value) : List Value :=
  xs.map (Option.map (fun v => v * c))

def allSome : List Value → Option (List ℚ)
  | [] => some []
  | none :: _ => none
  | some a :: xs => (allSome xs).map (a :: ·)

/-- pandas `rolling(window=w).mean()`-style aggregation with
`min_periods = w` (the default): the value at row `i` is defined only when
the window `xs[i+1-w .. i]` is full and NaN-free. -/
def rollingApply (w : Nat) (f : List ℚ → ℚ) (xs : List Value) : List Value :=
  (List.range xs.length).map fun i =>
    if i + 1 < w then none
    else
      match allSome ((xs.take (i + 1)).drop (i + 1 - w)) with
      | some vs => some (f vs)
      | none => none

/-- Rolling mean `rolling(window=w).mean()`, the formula behind the `ta`
library's `SMAIndicator`. -/
def rollingMean (w : Nat) (xs : List Value) : List Value :=
  rollingApply w (fun vs => vs.sum / (w : ℚ)) xs

def rollingMin (w : Nat) (xs : List Value) : List Value :=
  rollingApply w (fun vs => vs.foldr min (vs.headD 0)) xs

def rollingMax (w : Nat) (xs : List Value) : List Value :=
  rollingApply w (fun vs => vs.foldr max (vs.headD 0)) xs

/-- pandas `shift(k)`: NaN for the first `k` rows. -/
def shiftList (k : Nat) (xs : List Value) : List Value :=
  (List.range xs.length).map fun i => if i < k then none else xs.getD (i - k) none

/-- One step of `ewm(..., adjust=False).mean()`: the running mean seeds at
the first non-NaN observation and holds its value across NaN rows. -/
def ewmStep (α : ℚ) : Option ℚ → Value → Option ℚ
  | none, v => v
  | some m, none => some m
  | some m, some v => some ((1 - α) * m + α * v)

def ewmGo (α : ℚ) (minp : Nat) : Option ℚ → Nat → List Value → List Value
  | _, _, [] => []
  | st, cnt, x :: xs =>
    let st' := ewmStep α st x
    let cnt' := cnt + (if x.isSome then 1 else 0)
    (if cnt' < minp then none else st') :: ewmGo α minp st' cnt' xs

/-- pandas `ewm(alpha=α, min_periods=minp, adjust=False).mean()`: output is
NaN until `minp` non-NaN observations have been seen. -/
def ewmMean (α : ℚ) (minp : Nat) (xs : List Value) : List Value :=
  ewmGo α minp none 0 xs

/-- Exponential mean `ewm(span=w, min_periods=w, adjust=False).mean()`, behind
`ta`'s `EMAIndicator`. -/
def emaList (w : Nat) (xs : List Value) : List Value :=
  ewmMean (2 / ((w : ℚ) + 1)) w xs

/-- Cross signal `np.where(xs > ys, 1, 0)`: a total 0/1 column, NaN
comparing False. -/
def crossCol (xs ys : List Value) : List Value :=
  List.zipWith (fun a b => some (if optGtB a b then (1 : ℚ) else 0)) xs ys

/-- pandas `pct_change()`. -/
def pctChange (xs : List Value) : List Value :=
  zipW optDiv (zipW optSub xs (shiftList 1 xs)) (shiftList 1 xs)

/-- Rate of change `(Close - Close.shift(p)) / Close.shift(p) * 100`
(source lines 74-77). -/
def rocList (p : Nat) (xs : List Value) : List Value :=
  scaleO 100 (zipW optDiv (zipW optSub xs (shiftList p xs)) (shiftList p xs))

/-- Model of `ta`'s `RSIIndicator`: Wilder smoothing (`ewm(alpha=1/w)`) of the up and
down moves of `diff(1)`, where `where(cond, 0.0)` maps the NaN of the first
diff to `0.0`; rational division stands in for the `inf` Python produces
when the smoothed down-move is zero. -/
def rsiList (w : Nat) (xs : List Value) : List Value :=
  let d := zipW optSub xs (shiftList 1 xs)
  let up := d.map fun o => some (match o with | some v => max v 0 | none => 0)
  let dn := d.map fun o => some (match o with | some v => max (-v) 0 | none => 0)
  let eu := ewmMean (1 / (w : ℚ)) w up
  let dd := ewmMean (1 / (w : ℚ)) w dn
  (zipW optDiv eu dd).map (Option.map fun rs => 100 - 100 / (1 + rs))

/-- Model of `ta`'s `StochasticOscillator.stoch()`:
`100 * (close - low.rolling(w).min()) / (high.rolling(w).max() - low.rolling(w).min())`. -/
def stochK (w : Nat) (high low close : List Value) : List Value :=
  scaleO 100 (zipW optDiv (zipW optSub close (rollingMin w low))
    (zipW optSub (rollingMax w high) (rollingMin w low)))

/-- Model of `ta`'s `MACD.macd()`: EMA(12) - EMA(26). -/
def macdLine (xs : List Value) : List Value :=
  zipW optSub (emaList 12 xs) (emaList 26 xs)

/-- Model of `ta`'s `MACD.macd_signal()`: `ewm(span=9, min_periods=9)` of the MACD
line, so `α = 2/(9+1)`. -/
def macdSignal (xs : List Value) : List Value :=
  ewmMean (2 / (10 : ℚ)) 9 (macdLine xs)

/-- Model of `ta`'s `MACD.macd_diff()`: the MACD line minus its signal line. -/
def macdDiff (xs : List Value) : List Value :=
  zipW optSub (macdLine xs) (macdSignal xs)

/-- True range `max(high, prev_close) - min(low, prev_close)`; NaN on the
first row, where `prev_close` is NaN. -/
def trList (high low close : List Value) : List Value :=
  zipW optSub (zipW (optBin max) high (shiftList 1 close))
    (zipW (optBin min) low (shiftList 1 close))

/-- Model of `ta`'s `AverageTrueRange`: Wilder smoothing (`ewm(alpha=1/w,
min_periods=w)`) of the true range. -/
def atrList (w : Nat) (high low close : List Value) : List Value :=
  ewmMean (1 / (w : ℚ)) w (trList high low close)

/-- Sample variance (`ddof=1`), used by pandas `rolling(...).std()`. -/
def sampleVar (vs : List ℚ) : ℚ :=
  let m := vs.sum / (vs.length : ℚ)
  (vs.map fun x => (x - m) ^ 2).sum / ((vs.length : ℚ) - 1)

/-- Population variance (`ddof=0`), used by `ta`'s `BollingerBands`. -/
def popVar (vs : List ℚ) : ℚ :=
  let m := vs.sum / (vs.length : ℚ)
  (vs.map fun x => (x - m) ^ 2).sum / (vs.length : ℚ)

/-- Rolling standard deviation of the 20-row window (`ddof=0`), `sq` being
the square-root parameter of the embedding. -/
def bbDev (sq : ℚ → ℚ) (close : List Value) : List Value :=
  rollingApply 20 (fun vs => sq (popVar vs)) close

def bbHigh (sq : ℚ → ℚ) (close : List Value) : List Value :=
  zipW optAdd (rollingMean 20 close) (scaleO 2 (bbDev sq close))

def bbLow (sq : ℚ → ℚ) (close : List Value) : List Value :=
  zipW optSub (rollingMean 20 close) (scaleO 2 (bbDev sq close))

/-- Band width `bollinger_wband()`: `(hband - lband) / mavg * 100`. -/
def bbWidth (sq : ℚ → ℚ) (close : List Value) : List Value :=
  scaleO 100 (zipW optDiv (zipW optSub (bbHigh sq close) (bbLow sq close))
    (rollingMean 20 close))

/-- Percent band `bollinger_pband()`: `(close - lband) / (hband - lband)`. -/
def bbPct (sq : ℚ → ℚ) (close : List Value) : List Value :=
  zipW optDiv (zipW optSub close (bbLow sq close))
    (zipW optSub (bbHigh sq close) (bbLow sq close))

/-- Historical volatility `Close.pct_change().rolling(w).std() * np.sqrt(w)`
(source line 110). -/
def volatilityCol (sq : ℚ → ℚ) (w : Nat) (close : List Value) : List Value :=
  scaleO (sq (w : ℚ)) (rollingApply w (fun vs => sq (sampleVar vs)) (pctChange close))

/-- numpy `cumsum`: NaN poisons every later partial sum. -/
def cumsumGo : Option ℚ → List Value → List Value
  | _, [] => []
  | acc, x :: xs =>
    let a := optAdd acc x
    a :: cumsumGo a xs

/-- Model of `ta`'s `OnBalanceVolumeIndicator`:
`np.where(close < close.shift(1), -volume, volume).cumsum()`.  The NaN of
`close.shift(1)` on the first row compares False, so the first volume is
added. -/
def obvList (close volume : List Value) : List Value :=
  cumsumGo (some 0)
    (List.zipWith (fun cp v => if optLtB cp.1 cp.2 then Option.map Neg.neg v else v)
      (close.zip (shiftList 1 close)) volume)

/-! ## The four enrichment passes

Each pass is modelled as the list of `(name, column)` assignments it
performs on `self.df`, in source order, preceded by the column reads it
makes.  A failed read (missing required column) models the Python KeyError
as `none`.  Where the source reads back a column it has just assigned
(`self.df['SMA_20']` on line 44, `self.df['Volume_SMA_20']` on line 136),
the model uses the just-assigned list, which is what that read returns. -/

/-- The columns `add_moving_averages` assigns (source lines 26-47), in
order: six SMAs, five EMAs, then the two cross signals computed from the
`SMA_20`/`SMA_50` and `EMA_12`/`EMA_26` columns assigned just before. -/
def mvaCols (close : List Value) : List (String × List Value) :=
  [("SMA_5", rollingMean 5 close), ("SMA_10", rollingMean 10 close),
   ("SMA_20", rollingMean 20 close), ("SMA_50", rollingMean 50 close),
   ("SMA_100", rollingMean 100 close), ("SMA_200", rollingMean 200 close),
   ("EMA_9", emaList 9 close), ("EMA_12", emaList 12 close),
   ("EMA_21", emaList 21 close), ("EMA_26", emaList 26 close),
   ("EMA_50", emaList 50 close),
   ("SMA_Cross_20_50", crossCol (rollingMean 20 close) (rollingMean 50 close)),
   ("EMA_Cross_12_26", crossCol (emaList 12 close) (emaList 26 close))]

/-- The columns `add_momentum_indicators` assigns (source lines 49-80). -/
def momCols (close high low : List Value) : List (String × List Value) :=
  [("RSI_14", rsiList 14 close), ("RSI_21", rsiList 21 close),
   ("Stoch_K", stochK 14 high low close),
   ("Stoch_D", rollingMean 3 (stochK 14 high low close)),
   ("MACD", macdLine close), ("MACD_Signal", macdSignal close),
   ("MACD_Diff", macdDiff close),
   ("ROC_10", rocList 10 close), ("ROC_20", rocList 20 close)]

/-- The columns `add_volatility_indicators` assigns (source lines 82-113). -/
def volatCols (sq : ℚ → ℚ) (high low close : List Value) : List (String × List Value) :=
  [("ATR_14", atrList 14 high low close), ("ATR_20", atrList 20 high low close),
   ("BB_High", bbHigh sq close), ("BB_Mid", rollingMean 20 close),
   ("BB_Low", bbLow sq close), ("BB_Width", bbWidth sq close),
   ("BB_Pct", bbPct sq close),
   ("Volatility_10", volatilityCol sq 10 close),
   ("Volatility_20", volatilityCol sq 20 close),
   ("Volatility_30", volatilityCol sq 30 close)]

/-- The columns `add_volume_indicators` assigns when volume data is present
(source lines 116-139); the last one divides `Volume` by the
`Volume_SMA_20` column assigned just before. -/
def volCols (close volume : List Value) : List (String × List Value) :=
  [("OBV", obvList close volume),
   ("Volume_SMA_10", rollingMean 10 volume),
   ("Volume_SMA_20", rollingMean 20 volume),
   ("Volume_Ratio", zipW optDiv volume (rollingMean 20 volume))]

/-- Pass `add_moving_averages` (source lines 26-47): reads `Close`, assigns the
thirteen moving-average columns. -/
def add_moving_averages (df : DataFrame) : Option DataFrame :=
  (df.getCol "Close").map fun close => setCols df (mvaCols close)

/-- Pass `add_momentum_indicators` (source lines 49-80): reads `Close`, `High`
and `Low`, assigns the nine momentum columns. -/
def add_momentum_indicators (df : DataFrame) : Option DataFrame := do
  let close ← df.getCol "Close"
  let high ← df.getCol "High"
  let low ← df.getCol "Low"
  pure (setCols df (momCols close high low))

/-- Pass `add_volatility_indicators` (source lines 82-113): reads `High`, `Low`
and `Close`, assigns the ten volatility columns. -/
def add_volatility_indicators (sq : ℚ → ℚ) (df : DataFrame) : Option DataFrame := do
  let high ← df.getCol "High"
  let low ← df.getCol "Low"
  let close ← df.getCol "Close"
  pure (setCols df (volatCols sq high low close))

/-- Pass `add_volume_indicators` (source lines 116-139): skipped entirely when
there is no `Volume` column; otherwise reads `Close` and `Volume` and
assigns the four volume columns. -/
def add_volume_indicators (df : DataFrame) : Option DataFrame :=
  if df.hasCol "Volume" then do
    let close ← df.getCol "Close"
    let volume ← df.getCol "Volume"
    pure (setCols df (volCols close volume))
  else some df

/-- The four enrichment passes of the builder. -/
inductive Pass where
  | movingAverages
  | momentum
  | volatility
  | volume
deriving DecidableEq

def runPass (sq : ℚ → ℚ) : Pass → DataFrame → Option DataFrame
  | .movingAverages => add_moving_averages
  | .momentum => add_momentum_indicators
  | .volatility => add_volatility_indicators sq
  | .volume => add_volume_indicators

/-- A sequence of pass invocations on the builder's table. -/
def runPasses (sq : ℚ → ℚ) : List Pass → DataFrame → Option DataFrame
  | [], df => some df
  | p :: ps, df => (runPass sq p df).bind (runPasses sq ps)

/-- The names appended to `features_created` by each pass.  Note that
`add_moving_averages` assigns the two cross-signal columns without
registering them (source lines 43-45 have no `features_created.append`). -/
def mvaRegistered : List String :=
  ["SMA_5", "SMA_10", "SMA_20", "SMA_50", "SMA_100", "SMA_200",
   "EMA_9", "EMA_12", "EMA_21", "EMA_26", "EMA_50"]

def momRegistered : List String :=
  ["RSI_14", "RSI_21", "Stoch_K", "Stoch_D", "MACD", "MACD_Signal",
   "MACD_Diff", "ROC_10", "ROC_20"]

def volatRegistered : List String :=
  ["ATR_14", "ATR_20", "BB_High", "BB_Mid", "BB_Low", "BB_Width", "BB_Pct",
   "Volatility_10", "Volatility_20", "Volatility_30"]

def volRegistered : List String :=
  ["OBV", "Volume_SMA_10", "Volume_SMA_20", "Volume_Ratio"]

/-- The names of all columns a pass assigns. -/
def createdNames : Pass → List String
  | .movingAverages => mvaRegistered ++ ["SMA_Cross_20_50", "EMA_Cross_12_26"]
  | .momentum => momRegistered
  | .volatility => volatRegistered
  | .volume => volRegistered

/-- The `(name, column)` assignment list of each pass, as a function of the
columns it reads; `none` models a KeyError, and a present-but-volumeless
table yields the empty assignment list (the skipped pass). -/
def passSpec (sq : ℚ → ℚ) : Pass → DataFrame → Option (List (String × List Value))
  | .movingAverages, df => (df.getCol "Close").map mvaCols
  | .momentum, df =>
    (df.getCol "Close").bind fun close =>
      (df.getCol "High").bind fun high =>
        (df.getCol "Low").map fun low => momCols close high low
  | .volatility, df =>
    (df.getCol "High").bind fun high =>
      (df.getCol "Low").bind fun low =>
        (df.getCol "Close").map fun close => volatCols sq high low close
  | .volume, df =>
    if df.hasCol "Volume" then
      (df.getCol "Close").bind fun close =>
        (df.getCol "Volume").map fun volume => volCols close volume
    else some []

/-- The base columns a pass may read. -/
def baseNames : List String := ["High", "Low", "Close", "Volume"]

/-- The feature builder: its private table and the feature registry. -/
structure GoldFeatureEngineering where
  df : DataFrame
  features_created : List String
deriving DecidableEq

/-- pandas `df.copy()`: a deep copy, yielding an equal but independent
table. -/
def DataFrame.copy (df : DataFrame) : DataFrame :=
  ⟨df.index, df.cols⟩

/-- Constructor `__init__` (source lines 19-24): `self.df = df.copy()`,
`self.features_created = []`. -/
def GoldFeatureEngineering.init (df : DataFrame) : GoldFeatureEngineering :=
  ⟨df.copy, []⟩

/-- One builder method call: the pass runs on `self.df` and the names of
the registered features are appended to `self.features_created` (inside
the source loops; the net effect is the concatenation below).  A skipped
volume pass appends nothing. -/
def GoldFeatureEngineering.step (sq : ℚ → ℚ) :
    Pass → GoldFeatureEngineering → Option GoldFeatureEngineering
  | .movingAverages, g =>
    (add_moving_averages g.df).map fun d => ⟨d, g.features_created ++ mvaRegistered⟩
  | .momentum, g =>
    (add_momentum_indicators g.df).map fun d => ⟨d, g.features_created ++ momRegistered⟩
  | .volatility, g =>
    (add_volatility_indicators sq g.df).map fun d => ⟨d, g.features_created ++ volatRegistered⟩
  | .volume, g =>
    if g.df.hasCol "Volume" then
      (add_volume_indicators g.df).map fun d => ⟨d, g.features_created ++ volRegistered⟩
    else some g

/-! ## A heap model for the aliasing claim

The caller's table and the builder's table live in separate heap cells; the
constructor allocates the builder's cell with a copy of the caller's table,
and every pass rewrites only the builder's cell. -/

structure Session where
  heap : List DataFrame
  caller : Nat
  bref : Nat
deriving DecidableEq

/-- The caller holds a reference to its table; constructing the builder
allocates a fresh cell holding `df.copy()`. -/
def Session.start (df : DataFrame) : Session :=
  ⟨[df, df.copy], 0, 1⟩

/-- One builder method call mutates the builder's cell in place. -/
def Session.step (sq : ℚ → ℚ) (p : Pass) (s : Session) : Option Session :=
  match s.heap[s.bref]? with
  | none => none
  | some d => (runPass sq p d).map fun d' => ⟨s.heap.set s.bref d', s.caller, s.bref⟩

def Session.run (sq : ℚ → ℚ) : List Pass → Session → Option Session
  | [], s => some s
  | p :: ps, s => (Session.step sq p s).bind (Session.run sq ps)

/-! ## Concrete tables used to instantiate the theorems -/

/-- A trivial interpretation of the square-root parameter, enough for
instantiating shape theorems, which hold for every interpretation. -/
def sq0 : ℚ → ℚ := fun _ => 0

def dfEmpty : DataFrame := ⟨[], []⟩

/-- A one-row OHLCV table. -/
def dfB : DataFrame :=
  ⟨[0], [("Open", [some 1]), ("High", [some 2]), ("Low", [some (1/2)]),
         ("Close", [some 1]), ("Volume", [some 3])]⟩

/-- A one-row table with only a Close column (no volume data). -/
def dfC : DataFrame := ⟨[0], [("Close", [some 1])]⟩

/-- A one-row table with Close and Volume. -/
def dfv1 : DataFrame := ⟨[0], [("Close", [some 1]), ("Volume", [some 2])]⟩

def allPasses : List Pass := [.movingAverages, .momentum, .volatility, .volume]

def cs20 : List ℚ := (List.range 20).map fun k => (k : ℚ) + 1

/-- A twenty-row table whose Close column is 1, 2, ..., 20. -/
def df20 : DataFrame :=
  ⟨(List.range 20).map fun k => (k : ℤ), [("Close", cs20.map some)]⟩

def cs50 : List ℚ := (List.range 50).map fun k => (k : ℚ) + 1

/-- A fifty-row OHLCV table with increasing prices. -/
def df50 : DataFrame :=
  ⟨(List.range 50).map fun k => (k : ℤ),
   [("Open", cs50.map some), ("High", (cs50.map (· + 1)).map some),
    ("Low", (cs50.map (· - 1)).map some), ("Close", cs50.map some),
    ("Volume", (cs50.map (· * 2)).map some)]⟩

def dfBOut : DataFrame := (runPasses sq0 allPasses dfB).getD dfEmpty

def mvaOut20 : DataFrame := (add_moving_averages df20).getD dfEmpty

def sma20col : List Value := (mvaOut20.getCol "SMA_20").getD []

def mvaOut50 : DataFrame := (add_moving_averages df50).getD dfEmpty

def mvaOutC : DataFrame := (add_moving_averages dfC).getD dfEmpty

def momOut50 : DataFrame := (add_momentum_indicators df50).getD dfEmpty

def volOut50 : DataFrame := (add_volume_indicators df50).getD dfEmpty

def mvaOutB : DataFrame := (runPass sq0 .movingAverages dfB).getD dfEmpty

def sessionOut : Session :=
  (Session.run sq0 allPasses (Session.start dfB)).getD (Session.start dfB)

/-- The column a table holds under a name, defaulting to the empty column. -/
def colOf (df : DataFrame) (n : String) : List Value := (df.getCol n).getD []

/-- Concrete MACD value of `df50` at row 40. -/
def macd40 : ℚ := ((colOf momOut50 "MACD").getD 40 none).getD 0

/-- Concrete MACD signal value of `df50` at row 40. -/
def sig40 : ℚ := ((colOf momOut50 "MACD_Signal").getD 40 none).getD 0

/-- The volume column of `df50`, as plain rationals. -/
def vm50 : List ℚ := cs50.map (· * 2)

/-- A builder constructed over the volumeless table `dfC`. -/
def gC : GoldFeatureEngineering := GoldFeatureEngineering.init dfC

/-! ## Association-list and assignment lemmas -/

@[simp] theorem namesOf_nil : namesOf [] = [] := rfl

@[simp] theorem namesOf_cons (p : String × List Value) (l : List (String × List Value)) :
    namesOf (p :: l) = p.1 :: namesOf l := rfl

theorem lookupC_setColList (cols : List (String × List Value)) (m : String)
    (xs : List Value) (n : String) :
    lookupC (setColList cols m xs) n = if n = m then some xs else lookupC cols n := by
  induction cols with
  | nil =>
    by_cases h : n = m
    · simp [setColList, lookupC, h]
    · have h' : ¬ m = n := fun hh => h hh.symm
      simp [setColList, lookupC, h, h']
  | cons p rest ih =>
    obtain ⟨k, ys⟩ := p
    by_cases hkm : k = m
    · subst hkm
      by_cases hnk : n = k
      · simp [setColList, lookupC, hnk]
      · have h' : ¬ k = n := fun hh => hnk hh.symm
        simp [setColList, lookupC, hnk, h']
    · by_cases hkn : k = n
      · have hnm : ¬ n = m := fun hh => hkm (hkn.trans hh)
        simp [setColList, lookupC, hkm, hkn, hnm]
      · simp [setColList, lookupC, hkm, hkn, ih]

theorem getCol_setCol (df : DataFrame) (m : String) (xs : List Value) (n : String) :
    (df.setCol m xs).getCol n = if n = m then some xs else df.getCol n :=
  lookupC_setColList df.cols m xs n

@[simp] theorem setCol_index (df : DataFrame) (m : String) (xs : List Value) :
    (df.setCol m xs).index = df.index := rfl

@[simp] theorem setCols_index (l : List (String × List Value)) :
    ∀ df : DataFrame, (setCols df l).index = df.index := by
  induction l with
  | nil => intro df; rfl
  | cons p rest ih => intro df; obtain ⟨n, xs⟩ := p; rw [setCols, ih]; rfl

theorem lookupC_eq_none (l : List (String × List Value)) (n : String)
    (h : n ∉ namesOf l) : lookupC l n = none := by
  induction l with
  | nil => rfl
  | cons p rest ih =>
    obtain ⟨m, ys⟩ := p
    rw [namesOf_cons, List.mem_cons] at h
    push_neg at h
    have h1 : ¬ m = n := fun hh => h.1 hh.symm
    simp [lookupC, h1, ih h.2]

theorem lookupC_isSome_of_mem (l : List (String × List Value)) (n : String)
    (h : n ∈ namesOf l) : ∃ xs, lookupC l n = some xs := by
  induction l with
  | nil => simp at h
  | cons p rest ih =>
    obtain ⟨m, ys⟩ := p
    by_cases hm : m = n
    · exact ⟨ys, by simp [lookupC, hm]⟩
    · rw [namesOf_cons, List.mem_cons] at h
      rcases h with h | h
      · exact absurd h.symm hm
      · obtain ⟨xs, hxs⟩ := ih h
        exact ⟨xs, by simp [lookupC, hm, hxs]⟩

theorem mem_of_lookupC (l : List (String × List Value)) :
    ∀ (n : String) (ys : List Value), lookupC l n = some ys → (n, ys) ∈ l := by
  induction l with
  | nil => intro n ys h; simp [lookupC] at h
  | cons p rest ih =>
    intro n ys h
    obtain ⟨m, zs⟩ := p
    by_cases hm : m = n
    · subst hm
      rw [lookupC, if_pos rfl] at h
      obtain rfl : zs = ys := by injection h
      simp
    · rw [lookupC, if_neg hm] at h
      exact List.mem_cons_of_mem _ (ih n ys h)

theorem getCol_setCols_skip (l : List (String × List Value)) :
    ∀ (df : DataFrame) (n : String), lookupC l n = none →
      (setCols df l).getCol n = df.getCol n := by
  induction l with
  | nil => intro df n _; rfl
  | cons p rest ih =>
    intro df n h
    obtain ⟨m, ys⟩ := p
    by_cases hm : m = n
    · rw [lookupC, if_pos hm] at h
      cases h
    · rw [lookupC, if_neg hm] at h
      rw [setCols, ih _ _ h, getCol_setCol, if_neg (fun hh => hm hh.symm)]

theorem getCol_setCols_lookup (l : List (String × List Value)) :
    ∀ (df : DataFrame) (n : String) (xs : List Value), (namesOf l).Nodup →
      lookupC l n = some xs → (setCols df l).getCol n = some xs := by
  induction l with
  | nil => intro df n xs _ h; simp [lookupC] at h
  | cons p rest ih =>
    intro df n xs hnd h
    obtain ⟨m, ys⟩ := p
    rw [namesOf_cons, List.nodup_cons] at hnd
    by_cases hm : m = n
    · subst hm
      rw [lookupC, if_pos rfl] at h
      obtain rfl : ys = xs := by injection h
      rw [setCols, getCol_setCols_skip _ _ _ (lookupC_eq_none _ _ hnd.1),
        getCol_setCol, if_pos rfl]
    · rw [lookupC, if_neg hm] at h
      rw [setCols]
      exact ih _ _ _ hnd.2 h

theorem mem_setColList (cols : List (String × List Value)) (m : String)
    (xs : List Value) (p : String × List Value) (hp : p ∈ setColList cols m xs) :
    p = (m, xs) ∨ p ∈ cols := by
  induction cols with
  | nil => simpa [setColList] using hp
  | cons q rest ih =>
    obtain ⟨k, ys⟩ := q
    by_cases hk : k = m
    · rw [setColList, if_pos hk] at hp
      rcases List.mem_cons.mp hp with h | h
      · exact Or.inl h
      · exact Or.inr (List.mem_cons_of_mem _ h)
    · rw [setColList, if_neg hk] at hp
      rcases List.mem_cons.mp hp with h | h
      · exact Or.inr (by simp [h])
      · rcases ih h with h' | h'
        · exact Or.inl h'
        · exact Or.inr (List.mem_cons_of_mem _ h')

theorem setCol_WF (df : DataFrame) (m : String) (xs : List Value)
    (hwf : WF df) (hlen : xs.length = df.index.length) : WF (df.setCol m xs) := by
  intro p hp
  rcases mem_setColList df.cols m xs p hp with h | h
  · subst h; simpa using hlen
  · simpa using hwf p h

theorem setCols_WF (l : List (String × List Value)) :
    ∀ df : DataFrame, WF df → (∀ p ∈ l, p.2.length = df.index.length) →
      WF (setCols df l) := by
  induction l with
  | nil => intro df hwf _; exact hwf
  | cons p rest ih =>
    intro df hwf hlen
    obtain ⟨n, xs⟩ := p
    refine ih _ (setCol_WF df n xs hwf ?_) (fun q hq => ?_)
    · exact hlen (n, xs) (List.mem_cons_self _ _)
    · simpa using hlen q (List.mem_cons_of_mem _ hq)

theorem getCol_WF (df : DataFrame) (n : String) (ys : List Value)
    (hwf : WF df) (h : df.getCol n = some ys) : ys.length = df.index.length := by
  have hmem : (n, ys) ∈ df.cols := mem_of_lookupC df.cols n ys h
  simpa using hwf _ hmem

theorem hasCol_setCols (l : List (String × List Value)) :
    ∀ (df : DataFrame) (n : String),
      (setCols df l).hasCol n = true ↔ n ∈ namesOf l ∨ df.hasCol n = true := by
  induction l with
  | nil => intro df n; simp [setCols]
  | cons p rest ih =>
    intro df n
    obtain ⟨m, ys⟩ := p
    rw [setCols, ih]
    unfold DataFrame.hasCol
    rw [getCol_setCol]
    by_cases hnm : n = m
    · simp [hnm]
    · simp [hnm, or_assoc]

/-- A column that was read successfully is present. -/
theorem hasCol_of_getCol (df : DataFrame) (n : String) (ys : List Value)
    (h : df.getCol n = some ys) : df.hasCol n = true := by
  unfold DataFrame.hasCol
  rw [h]
  rfl

/-! ## Length lemmas: every derived column is as long as its inputs -/

@[simp] theorem rollingApply_length (w : Nat) (f : List ℚ → ℚ) (xs : List Value) :
    (rollingApply w f xs).length = xs.length := by
  simp [rollingApply]

@[simp] theorem rollingMean_length (w : Nat) (xs : List Value) :
    (rollingMean w xs).length = xs.length := rollingApply_length ..

@[simp] theorem rollingMin_length (w : Nat) (xs : List Value) :
    (rollingMin w xs).length = xs.length := rollingApply_length ..

@[simp] theorem rollingMax_length (w : Nat) (xs : List Value) :
    (rollingMax w xs).length = xs.length := rollingApply_length ..

@[simp] theorem shiftList_length (k : Nat) (xs : List Value) :
    (shiftList k xs).length = xs.length := by
  simp [shiftList]

@[simp] theorem ewmGo_length (α : ℚ) (minp : Nat) :
    ∀ (st : Option ℚ) (cnt : Nat) (xs : List Value),
      (ewmGo α minp st cnt xs).length = xs.length := by
  intro st cnt xs
  induction xs generalizing st cnt with
  | nil => rfl
  | cons x rest ih => simp [ewmGo, ih]

@[simp] theorem ewmMean_length (α : ℚ) (minp : Nat) (xs : List Value) :
    (ewmMean α minp xs).length = xs.length := ewmGo_length ..

@[simp] theorem emaList_length (w : Nat) (xs : List Value) :
    (emaList w xs).length = xs.length := ewmGo_length ..

@[simp] theorem zipW_length (f : Value → Value → Value) (xs ys : List Value) :
    (zipW f xs ys).length = min xs.length ys.length := List.length_zipWith ..

@[simp] theorem crossCol_length (xs ys : List Value) :
    (crossCol xs ys).length = min xs.length ys.length := List.length_zipWith ..

@[simp] theorem scaleO_length (c : ℚ) (xs : List Value) :
    (scaleO c xs).length = xs.length := by
  simp [scaleO]

@[simp] theorem cumsumGo_length :
    ∀ (acc : Option ℚ) (xs : List Value), (cumsumGo acc xs).length = xs.length := by
  intro acc xs
  induction xs generalizing acc with
  | nil => rfl
  | cons x rest ih => simp [cumsumGo, ih]

@[simp] theorem pctChange_length (xs : List Value) :
    (pctChange xs).length = xs.length := by
  simp [pctChange]

@[simp] theorem rocList_length (p : Nat) (xs : List Value) :
    (rocList p xs).length = xs.length := by
  simp [rocList]

@[simp] theorem rsiList_length (w : Nat) (xs : List Value) :
    (rsiList w xs).length = xs.length := by
  simp [rsiList]

theorem stochK_length (w : Nat) (high low close : List Value)
    (hh : high.length = close.length) (hl : low.length = close.length) :
    (stochK w high low close).length = close.length := by
  simp [stochK, hh, hl]

@[simp] theorem macdLine_length (xs : List Value) :
    (macdLine xs).length = xs.length := by
  simp [macdLine]

@[simp] theorem macdSignal_length (xs : List Value) :
    (macdSignal xs).length = xs.length := by
  simp [macdSignal]

@[simp] theorem macdDiff_length (xs : List Value) :
    (macdDiff xs).length = xs.length := by
  simp [macdDiff]

theorem trList_length (high low close : List Value)
    (hh : high.length = close.length) (hl : low.length = close.length) :
    (trList high low close).length = close.length := by
  simp [trList, hh, hl]

theorem atrList_length (w : Nat) (high low close : List Value)
    (hh : high.length = close.length) (hl : low.length = close.length) :
    (atrList w high low close).length = close.length := by
  simp [atrList, trList, hh, hl]

@[simp] theorem bbDev_length (sq : ℚ → ℚ) (close : List Value) :
    (bbDev sq close).length = close.length := rollingApply_length ..

@[simp] theorem bbHigh_length (sq : ℚ → ℚ) (close : List Value) :
    (bbHigh sq close).length = close.length := by
  simp [bbHigh]

@[simp] theorem bbLow_length (sq : ℚ → ℚ) (close : List Value) :
    (bbLow sq close).length = close.length := by
  simp [bbLow]

@[simp] theorem bbWidth_length (sq : ℚ → ℚ) (close : List Value) :
    (bbWidth sq close).length = close.length := by
  simp [bbWidth]

@[simp] theorem bbPct_length (sq : ℚ → ℚ) (close : List Value) :
    (bbPct sq close).length = close.length := by
  simp [bbPct]

@[simp] theorem volatilityCol_length (sq : ℚ → ℚ) (w : Nat) (close : List Value) :
    (volatilityCol sq w close).length = close.length := by
  simp [volatilityCol]

theorem obvList_length (close volume : List Value)
    (hv : volume.length = close.length) :
    (obvList close volume).length = close.length := by
  simp [obvList, hv]

/-! ## Pointwise value lemmas -/

theorem range_map_getD (n : Nat) (g : Nat → Value) (i : Nat) :
    ((List.range n).map g).getD i none = if i < n then g i else none := by
  by_cases h : i < n
  · rw [List.getD_eq_getElem?_getD, List.getElem?_map,
      List.getElem?_eq_getElem (by simpa using h), List.getElem_range]
    simp [h]
  · rw [List.getD_eq_getElem?_getD, List.getElem?_map,
      List.getElem?_eq_none (by simpa using Nat.le_of_not_lt h)]
    simp [h]

theorem getD_lt_of_some (l : List Value) (i : Nat) (a : ℚ)
    (h : l.getD i none = some a) : i < l.length := by
  by_contra hlt
  rw [List.getD_eq_default _ _ (Nat.le_of_not_lt hlt)] at h
  cases h

theorem zipWith_getD (f : Value → Value → Value) :
    ∀ (xs ys : List Value) (i : Nat), i < xs.length → i < ys.length →
      (List.zipWith f xs ys).getD i none = f (xs.getD i none) (ys.getD i none) := by
  intro xs
  induction xs with
  | nil => intro ys i h _; simp at h
  | cons x rest ih =>
    intro ys i hx hy
    cases ys with
    | nil => simp at hy
    | cons y rest' =>
      cases i with
      | zero => rfl
      | succ j =>
        rw [List.zipWith_cons_cons, List.getD_cons_succ, List.getD_cons_succ,
          List.getD_cons_succ]
        exact ih rest' j (by simpa using hx) (by simpa using hy)

theorem map_some_getD (l : List ℚ) (i : Nat) (h : i < l.length) :
    (l.map some).getD i none = some (l.getD i 0) := by
  rw [List.getD_eq_getElem?_getD, List.getElem?_map, List.getElem?_eq_getElem h,
    List.getD_eq_getElem?_getD, List.getElem?_eq_getElem h]
  rfl

theorem allSome_map_some (l : List ℚ) : allSome (l.map some) = some l := by
  induction l with
  | nil => rfl
  | cons x rest ih => simp [allSome, ih]

/-- The value a rolling aggregation takes inside the table. -/
theorem rollingApply_getD (w : Nat) (f : List ℚ → ℚ) (xs : List Value) (i : Nat)
    (h : i < xs.length) :
    (rollingApply w f xs).getD i none =
      if i + 1 < w then none
      else
        match allSome ((xs.take (i + 1)).drop (i + 1 - w)) with
        | some vs => some (f vs)
        | none => none := by
  rw [rollingApply, range_map_getD, if_pos h]

/-- A rolling aggregation is NaN on the first `w - 1` rows. -/
theorem rollingApply_getD_front (w : Nat) (f : List ℚ → ℚ) (xs : List Value)
    (i : Nat) (h : i + 1 < w) : (rollingApply w f xs).getD i none = none := by
  by_cases hl : i < xs.length
  · rw [rollingApply_getD w f xs i hl, if_pos h]
  · exact List.getD_eq_default _ _ (by simpa using Nat.le_of_not_lt hl)

/-- On an all-defined column, a full rolling window aggregates the last `w`
values. -/
theorem rollingApply_getD_full (w : Nat) (f : List ℚ → ℚ) (cs : List ℚ) (i : Nat)
    (hw : w ≤ i + 1) (hl : i < cs.length) :
    (rollingApply w f (cs.map some)).getD i none =
      some (f ((cs.drop (i + 1 - w)).take w)) := by
  rw [rollingApply_getD w f (cs.map some) i (by simpa using hl),
    if_neg (by omega)]
  rw [show ((cs.map some).take (i + 1)).drop (i + 1 - w)
      = (((cs.take (i + 1)).drop (i + 1 - w)).map some) by
    rw [← List.map_take, ← List.map_drop]]
  rw [allSome_map_some]
  rw [List.drop_take, show i + 1 - (i + 1 - w) = w by omega]

/-! ## Pass-level lemmas -/

theorem runPass_eq_spec (sq : ℚ → ℚ) (p : Pass) (df : DataFrame) :
    runPass sq p df = (passSpec sq p df).map fun l => setCols df l := by
  cases p
  · cases hc : df.getCol "Close" <;>
      simp [runPass, add_moving_averages, passSpec, hc]
  · cases hc : df.getCol "Close" <;> cases hh : df.getCol "High" <;>
      cases hl : df.getCol "Low" <;>
      simp [runPass, add_momentum_indicators, passSpec, hc, hh, hl]
  · cases hh : df.getCol "High" <;> cases hl : df.getCol "Low" <;>
      cases hc : df.getCol "Close" <;>
      simp [runPass, add_volatility_indicators, passSpec, hh, hl, hc]
  · by_cases hv : df.hasCol "Volume"
    · cases hc : df.getCol "Close" <;> cases hvol : df.getCol "Volume" <;>
        simp [runPass, add_volume_indicators, passSpec, hv, hc, hvol]
    · simp [runPass, add_volume_indicators, passSpec, hv, setCols]

theorem namesOf_mvaCols (close : List Value) :
    namesOf (mvaCols close) = createdNames .movingAverages := rfl

theorem namesOf_momCols (close high low : List Value) :
    namesOf (momCols close high low) = createdNames .momentum := rfl

theorem namesOf_volatCols (sq : ℚ → ℚ) (high low close : List Value) :
    namesOf (volatCols sq high low close) = createdNames .volatility := rfl

theorem namesOf_volCols (close volume : List Value) :
    namesOf (volCols close volume) = createdNames .volume := rfl

theorem createdNames_nodup (p : Pass) : (createdNames p).Nodup := by
  cases p <;> decide

/-- What a successful pass assigns: its created-name list, or nothing for
the skipped volume pass. -/
theorem passSpecNames (sq : ℚ → ℚ) (p : Pass) (df : DataFrame)
    (l : List (String × List Value)) (h : passSpec sq p df = some l) :
    namesOf l = createdNames p ∨
      (p = .volume ∧ l = [] ∧ df.hasCol "Volume" = false) := by
  cases p
  · cases hc : df.getCol "Close" <;> rw [passSpec, hc] at h
    · cases h
    · obtain rfl : _ = l := Option.some.inj h
      exact Or.inl (namesOf_mvaCols _)
  · cases hc : df.getCol "Close" <;> cases hh : df.getCol "High" <;>
      cases hl : df.getCol "Low" <;> simp [passSpec, hc, hh, hl] at h
    obtain rfl := h.symm
    exact Or.inl (namesOf_momCols ..)
  · cases hh : df.getCol "High" <;> cases hl : df.getCol "Low" <;>
      cases hc : df.getCol "Close" <;> simp [passSpec, hh, hl, hc] at h
    obtain rfl := h.symm
    exact Or.inl (namesOf_volatCols ..)
  · by_cases hv : df.hasCol "Volume"
    · cases hc : df.getCol "Close" <;> cases hvol : df.getCol "Volume" <;>
        simp [passSpec, hv, hc, hvol] at h
      obtain rfl := h.symm
      exact Or.inl (namesOf_volCols ..)
    · simp [passSpec, hv] at h
      exact Or.inr ⟨rfl, h, by simpa using hv⟩

/-- The assignments a pass makes depend only on the base columns it reads. -/
theorem passSpec_ext (sq : ℚ → ℚ) (p : Pass) (d1 d2 : DataFrame)
    (hH : d1.getCol "High" = d2.getCol "High")
    (hL : d1.getCol "Low" = d2.getCol "Low")
    (hC : d1.getCol "Close" = d2.getCol "Close")
    (hV : d1.getCol "Volume" = d2.getCol "Volume") :
    passSpec sq p d1 = passSpec sq p d2 := by
  cases p <;> simp only [passSpec, DataFrame.hasCol, hH, hL, hC, hV]

/-- Every column a pass assigns has one value per row. -/
theorem passSpec_lengths (sq : ℚ → ℚ) (p : Pass) (df : DataFrame)
    (l : List (String × List Value)) (hwf : WF df) (h : passSpec sq p df = some l) :
    ∀ q ∈ l, q.2.length = df.index.length := by
  cases p
  · cases hc : df.getCol "Close" <;> rw [passSpec, hc] at h
    · cases h
    · obtain rfl : _ = l := Option.some.inj h
      have hcl := getCol_WF df _ _ hwf hc
      intro q hq
      simp only [mvaCols, List.mem_cons, List.not_mem_nil, or_false] at hq
      rcases hq with rfl | rfl | rfl | rfl | rfl | rfl | rfl | rfl | rfl | rfl |
        rfl | rfl | rfl <;> simp [hcl]
  · cases hc : df.getCol "Close" <;> cases hh : df.getCol "High" <;>
      cases hl : df.getCol "Low" <;> simp [passSpec, hc, hh, hl] at h
    obtain rfl := h.symm
    have hcl := getCol_WF df _ _ hwf hc
    have hhl := getCol_WF df _ _ hwf hh
    have hll := getCol_WF df _ _ hwf hl
    intro q hq
    simp only [momCols, List.mem_cons, List.not_mem_nil, or_false] at hq
    rcases hq with rfl | rfl | rfl | rfl | rfl | rfl | rfl | rfl | rfl <;>
      simp [stochK, hcl, hhl, hll]
  · cases hh : df.getCol "High" <;> cases hl : df.getCol "Low" <;>
      cases hc : df.getCol "Close" <;> simp [passSpec, hh, hl, hc] at h
    obtain rfl := h.symm
    have hhl := getCol_WF df _ _ hwf hh
    have hll := getCol_WF df _ _ hwf hl
    have hcl := getCol_WF df _ _ hwf hc
    intro q hq
    simp only [volatCols, List.mem_cons, List.not_mem_nil, or_false] at hq
    rcases hq with rfl | rfl | rfl | rfl | rfl | rfl | rfl | rfl | rfl | rfl <;>
      simp [atrList, trList, hcl, hhl, hll]
  · by_cases hv : df.hasCol "Volume"
    · cases hc : df.getCol "Close" <;> cases hvol : df.getCol "Volume" <;>
        simp [passSpec, hv, hc, hvol] at h
      obtain rfl := h.symm
      have hcl := getCol_WF df _ _ hwf hc
      have hvl := getCol_WF df _ _ hwf hvol
      intro q hq
      simp only [volCols, List.mem_cons, List.not_mem_nil, or_false] at hq
      rcases hq with rfl | rfl | rfl | rfl <;> simp [obvList, hcl, hvl]
    · simp [passSpec, hv] at h
      obtain rfl := h.symm
      intro q hq
      cases hq

/-- Every pass preserves the time index and well-formedness. -/
theorem runPass_pres (sq : ℚ → ℚ) (p : Pass) (df df' : DataFrame)
    (h : runPass sq p df = some df') :
    df'.index = df.index ∧ (WF df → WF df') := by
  rw [runPass_eq_spec] at h
  cases hspec : passSpec sq p df with
  | none => rw [hspec] at h; cases h
  | some l =>
    rw [hspec] at h
    obtain rfl : _ = df' := Option.some.inj h
    refine ⟨setCols_index .., fun hwf => ?_⟩
    exact setCols_WF l df hwf (passSpec_lengths sq p df l hwf hspec)

theorem base_not_created (q : Pass) :
    (baseNames.all fun n => !((createdNames q).contains n)) = true := by
  cases q <;> decide

theorem created_disjoint_bool (p q : Pass) :
    p = q ∨ ((createdNames p).all fun n => !((createdNames q).contains n)) = true := by
  cases p <;> cases q <;> first | exact Or.inl rfl | exact Or.inr (by decide)

theorem not_mem_of_all_not_contains {l l' : List String}
    (h : (l.all fun n => !(l'.contains n)) = true) {n : String} (hn : n ∈ l) :
    n ∉ l' := by
  have hb := List.all_eq_true.mp h n hn
  simpa using hb

/-! ## Helper lemmas for resolving single columns of a pass result -/

theorem optGtB_none_left (y : Value) : optGtB none y = false := by
  cases y <;> rfl

theorem optGtB_none_right (x : Value) : optGtB x none = false := by
  cases x <;> rfl

theorem optDiv_none_right (x : Value) : optDiv x none = none := by
  cases x <;> rfl

theorem mva_eq (df : DataFrame) (close : List Value)
    (hc : df.getCol "Close" = some close) :
    add_moving_averages df = some (setCols df (mvaCols close)) := by
  rw [add_moving_averages, hc]
  rfl

theorem mom_eq (df : DataFrame) (close high low : List Value)
    (hc : df.getCol "Close" = some close) (hh : df.getCol "High" = some high)
    (hl : df.getCol "Low" = some low) :
    add_momentum_indicators df = some (setCols df (momCols close high low)) := by
  rw [add_momentum_indicators, hc, hh, hl]
  rfl

theorem vol_eq (df : DataFrame) (close : List Value) (volume : List Value)
    (hc : df.getCol "Close" = some close) (hv : df.getCol "Volume" = some volume) :
    add_volume_indicators df = some (setCols df (volCols close volume)) := by
  rw [add_volume_indicators, if_pos (hasCol_of_getCol df _ _ hv), hc, hv]
  rfl

theorem getCol_mva (df : DataFrame) (close : List Value) (n : String)
    (xs : List Value) (hl : lookupC (mvaCols close) n = some xs) :
    (setCols df (mvaCols close)).getCol n = some xs :=
  getCol_setCols_lookup _ df n xs
    (by rw [namesOf_mvaCols]; exact createdNames_nodup _) hl

theorem getCol_mom (df : DataFrame) (close high low : List Value) (n : String)
    (xs : List Value) (hl : lookupC (momCols close high low) n = some xs) :
    (setCols df (momCols close high low)).getCol n = some xs :=
  getCol_setCols_lookup _ df n xs
    (by rw [namesOf_momCols]; exact createdNames_nodup _) hl

theorem getCol_vol (df : DataFrame) (close volume : List Value) (n : String)
    (xs : List Value) (hl : lookupC (volCols close volume) n = some xs) :
    (setCols df (volCols close volume)).getCol n = some xs :=
  getCol_setCols_lookup _ df n xs
    (by rw [namesOf_volCols]; exact createdNames_nodup _) hl

/-! ## The claims -/

/-- C1: for every input table and every sequence of enrichment passes, the
resulting table has the same time index (hence the same row count) as the
input, and every column — in particular every appended feature column —
still has exactly one value per row of that index: no pass adds or removes
a row. -/
theorem c1_passes_preserve_shape (sq : ℚ → ℚ) (ps : List Pass) :
    ∀ df : DataFrame, WF df → ∀ df', runPasses sq ps df = some df' →
      df'.index = df.index ∧ df'.index.length = df.index.length ∧ WF df' := by
  induction ps with
  | nil =>
    intro df hwf df' h
    obtain rfl : df = df' := Option.some.inj h
    exact ⟨rfl, rfl, hwf⟩
  | cons p ps ih =>
    intro df hwf df' h
    rw [runPasses] at h
    cases hp : runPass sq p df with
    | none => rw [hp] at h; cases h
    | some d =>
      rw [hp] at h
      obtain ⟨hidx, hwfd⟩ := runPass_pres sq p df d hp
      obtain ⟨h1, _, h3⟩ := ih d (hwfd hwf) df' h
      exact ⟨h1.trans hidx, by rw [h1, hidx], h3⟩

theorem c1_passes_preserve_shape_w :
    WF dfB ∧ runPasses sq0 allPasses dfB = some dfBOut ∧
      (dfBOut.index = dfB.index ∧ dfBOut.index.length = dfB.index.length ∧
        WF dfBOut) :=
  ⟨by decide, by decide,
    c1_passes_preserve_shape sq0 allPasses dfB (by decide) dfBOut (by decide)⟩

/-- C6: on a table with no `Volume` column, `add_volume_indicators` raises
no error and returns the table unchanged — no column is added, so in
particular none of OBV, Volume_SMA_10, Volume_SMA_20, Volume_Ratio appear
unless they were already present in the input. -/
theorem c6_volume_pass_skipped (df : DataFrame) (h : df.hasCol "Volume" = false) :
    add_volume_indicators df = some df ∧
      ∀ n, ((add_volume_indicators df).getD dfEmpty).hasCol n = df.hasCol n := by
  have hskip : add_volume_indicators df = some df := by
    simp [add_volume_indicators, h]
  exact ⟨hskip, fun n => by rw [hskip]; rfl⟩

theorem c6_volume_pass_skipped_w :
    dfC.hasCol "Volume" = false ∧
      (add_volume_indicators dfC = some dfC ∧
        ∀ n, ((add_volume_indicators dfC).getD dfEmpty).hasCol n = dfC.hasCol n) :=
  ⟨by decide, c6_volume_pass_skipped dfC (by decide)⟩

/-- C3: after `add_moving_averages` on a table whose Close column is
all-defined, the SMA_20 column is NaN on every row `i < 19` and on every
row `19 ≤ i < n` equals the arithmetic mean of the twenty Close values of
rows `i-19 .. i`. -/
theorem c3_sma20_is_rolling_mean (df : DataFrame) (cs : List ℚ)
    (hc : df.getCol "Close" = some (cs.map some)) :
    ∀ df', add_moving_averages df = some df' →
    ∀ sma, df'.getCol "SMA_20" = some sma →
      (∀ i, i < 19 → sma.getD i none = none) ∧
      (∀ i, 19 ≤ i → i < cs.length →
        sma.getD i none = some ((((cs.drop (i - 19)).take 20).sum) / 20)) := by
  intro df' h sma hsma
  obtain rfl : setCols df (mvaCols (cs.map some)) = df' :=
    Option.some.inj ((mva_eq df _ hc).symm.trans h)
  rw [getCol_mva df _ "SMA_20" _ rfl] at hsma
  obtain rfl : rollingMean 20 (cs.map some) = sma := Option.some.inj hsma
  constructor
  · intro i hi
    exact rollingApply_getD_front 20 _ _ i (by omega)
  · intro i h19 hlen
    rw [rollingMean, rollingApply_getD_full 20 _ cs i (by omega) hlen,
      show i + 1 - 20 = i - 19 by omega]
    norm_num

theorem c3_sma20_is_rolling_mean_w :
    df20.getCol "Close" = some (cs20.map some) ∧
      add_moving_averages df20 = some mvaOut20 ∧
      mvaOut20.getCol "SMA_20" = some sma20col ∧
      ((∀ i, i < 19 → sma20col.getD i none = none) ∧
        (∀ i, 19 ≤ i → i < cs20.length →
          sma20col.getD i none = some ((((cs20.drop (i - 19)).take 20).sum) / 20))) :=
  ⟨by decide, by decide, by decide,
    c3_sma20_is_rolling_mean df20 cs20 (by decide) mvaOut20 (by decide)
      sma20col (by decide)⟩

/-- C4: after `add_moving_averages`, on every row where both SMA_20 and
SMA_50 are defined, SMA_Cross_20_50 is 1 exactly when SMA_20 exceeds
SMA_50 and 0 otherwise. -/
theorem c4_sma_cross_signal (df : DataFrame) (close : List Value)
    (hc : df.getCol "Close" = some close) :
    ∀ df', add_moving_averages df = some df' →
    ∀ s20 s50 cr, df'.getCol "SMA_20" = some s20 →
      df'.getCol "SMA_50" = some s50 →
      df'.getCol "SMA_Cross_20_50" = some cr →
      ∀ i a b, s20.getD i none = some a → s50.getD i none = some b →
        ((cr.getD i none = some 1 ↔ a > b) ∧
          (cr.getD i none = some 0 ↔ ¬ a > b)) := by
  intro df' h s20 s50 cr h20 h50 hcr i a b ha hb
  obtain rfl : setCols df (mvaCols close) = df' :=
    Option.some.inj ((mva_eq df _ hc).symm.trans h)
  rw [getCol_mva df _ "SMA_20" _ rfl] at h20
  rw [getCol_mva df _ "SMA_50" _ rfl] at h50
  rw [getCol_mva df _ "SMA_Cross_20_50" _ rfl] at hcr
  obtain rfl : rollingMean 20 close = s20 := Option.some.inj h20
  obtain rfl : rollingMean 50 close = s50 := Option.some.inj h50
  obtain rfl : crossCol (rollingMean 20 close) (rollingMean 50 close) = cr :=
    Option.some.inj hcr
  have hi20 := getD_lt_of_some _ _ _ ha
  have hi50 := getD_lt_of_some _ _ _ hb
  rw [crossCol, zipWith_getD _ _ _ i hi20 hi50, ha, hb]
  simp only [optGtB, optLtB, gt_iff_lt]
  by_cases hab : b < a <;> simp [hab]

theorem c4_sma_cross_signal_w :
    df50.getCol "Close" = some (cs50.map some) ∧
      add_moving_averages df50 = some mvaOut50 ∧
      mvaOut50.getCol "SMA_20" = some (colOf mvaOut50 "SMA_20") ∧
      mvaOut50.getCol "SMA_50" = some (colOf mvaOut50 "SMA_50") ∧
      mvaOut50.getCol "SMA_Cross_20_50" = some (colOf mvaOut50 "SMA_Cross_20_50") ∧
      (colOf mvaOut50 "SMA_20").getD 49 none = some (81/2) ∧
      (colOf mvaOut50 "SMA_50").getD 49 none = some (51/2) ∧
      (((colOf mvaOut50 "SMA_Cross_20_50").getD 49 none = some 1 ↔ (81:ℚ)/2 > 51/2) ∧
        ((colOf mvaOut50 "SMA_Cross_20_50").getD 49 none = some 0 ↔ ¬ (81:ℚ)/2 > 51/2)) :=
  ⟨by decide, by decide, by decide, by decide, by decide, by decide, by decide,
    c4_sma_cross_signal df50 (cs50.map some) (by decide) mvaOut50 (by decide)
      (colOf mvaOut50 "SMA_20") (colOf mvaOut50 "SMA_50")
      (colOf mvaOut50 "SMA_Cross_20_50") (by decide) (by decide) (by decide)
      49 (81/2) (51/2) (by decide) (by decide)⟩

/-- C10: the binary cross-signal columns never hold NaN: wherever SMA_20 or
SMA_50 is NaN (in particular on every row `i < 49`, where SMA_50 is still
undefined) SMA_Cross_20_50 is 0, and wherever EMA_12 or EMA_26 is NaN
EMA_Cross_12_26 is 0. -/
theorem c10_cross_zero_on_nan (df : DataFrame) (close : List Value)
    (hc : df.getCol "Close" = some close) :
    ∀ df', add_moving_averages df = some df' →
    ∀ s20 s50 e12 e26 cS cE, df'.getCol "SMA_20" = some s20 →
      df'.getCol "SMA_50" = some s50 → df'.getCol "EMA_12" = some e12 →
      df'.getCol "EMA_26" = some e26 →
      df'.getCol "SMA_Cross_20_50" = some cS →
      df'.getCol "EMA_Cross_12_26" = some cE →
      (∀ i, i < close.length →
        (s20.getD i none = none ∨ s50.getD i none = none) →
        cS.getD i none = some 0) ∧
      (∀ i, i < close.length → i < 49 → cS.getD i none = some 0) ∧
      (∀ i, i < close.length →
        (e12.getD i none = none ∨ e26.getD i none = none) →
        cE.getD i none = some 0) := by
  intro df' h s20 s50 e12 e26 cS cE h20 h50 h12 h26 hcS hcE
  obtain rfl : setCols df (mvaCols close) = df' :=
    Option.some.inj ((mva_eq df _ hc).symm.trans h)
  rw [getCol_mva df _ "SMA_20" _ rfl] at h20
  rw [getCol_mva df _ "SMA_50" _ rfl] at h50
  rw [getCol_mva df _ "EMA_12" _ rfl] at h12
  rw [getCol_mva df _ "EMA_26" _ rfl] at h26
  rw [getCol_mva df _ "SMA_Cross_20_50" _ rfl] at hcS
  rw [getCol_mva df _ "EMA_Cross_12_26" _ rfl] at hcE
  obtain rfl : rollingMean 20 close = s20 := Option.some.inj h20
  obtain rfl : rollingMean 50 close = s50 := Option.some.inj h50
  obtain rfl : emaList 12 close = e12 := Option.some.inj h12
  obtain rfl : emaList 26 close = e26 := Option.some.inj h26
  obtain rfl : crossCol (rollingMean 20 close) (rollingMean 50 close) = cS :=
    Option.some.inj hcS
  obtain rfl : crossCol (emaList 12 close) (emaList 26 close) = cE :=
    Option.some.inj hcE
  have hsma : ∀ i, i < close.length →
      ((rollingMean 20 close).getD i none = none ∨
        (rollingMean 50 close).getD i none = none) →
      (crossCol (rollingMean 20 close) (rollingMean 50 close)).getD i none
        = some 0 := by
    intro i hi hnone
    rw [crossCol, zipWith_getD _ _ _ i (by simpa using hi) (by simpa using hi)]
    rcases hnone with hn | hn
    · rw [hn, optGtB_none_left]
      rfl
    · rw [hn, optGtB_none_right]
      rfl
  refine ⟨hsma, fun i hi h49 => hsma i hi ?_, ?_⟩
  · exact Or.inr (rollingApply_getD_front 50 _ _ i (by omega))
  · intro i hi hnone
    rw [crossCol, zipWith_getD _ _ _ i (by simpa using hi) (by simpa using hi)]
    rcases hnone with hn | hn
    · rw [hn, optGtB_none_left]
      rfl
    · rw [hn, optGtB_none_right]
      rfl

theorem c10_cross_zero_on_nan_w :
    dfC.getCol "Close" = some [some 1] ∧
      add_moving_averages dfC = some mvaOutC ∧
      mvaOutC.getCol "SMA_20" = some (colOf mvaOutC "SMA_20") ∧
      mvaOutC.getCol "SMA_Cross_20_50" = some (colOf mvaOutC "SMA_Cross_20_50") ∧
      (colOf mvaOutC "SMA_Cross_20_50").getD 0 none = some 0 ∧
      ((∀ i, i < [some (1:ℚ)].length →
          ((colOf mvaOutC "SMA_20").getD i none = none ∨
            (colOf mvaOutC "SMA_50").getD i none = none) →
          (colOf mvaOutC "SMA_Cross_20_50").getD i none = some 0) ∧
        (∀ i, i < [some (1:ℚ)].length → i < 49 →
          (colOf mvaOutC "SMA_Cross_20_50").getD i none = some 0) ∧
        (∀ i, i < [some (1:ℚ)].length →
          ((colOf mvaOutC "EMA_12").getD i none = none ∨
            (colOf mvaOutC "EMA_26").getD i none = none) →
          (colOf mvaOutC "EMA_Cross_12_26").getD i none = some 0)) :=
  ⟨by decide, by decide, by decide, by decide, by decide,
    c10_cross_zero_on_nan dfC [some 1] (by decide) mvaOutC (by decide)
      (colOf mvaOutC "SMA_20") (colOf mvaOutC "SMA_50")
      (colOf mvaOutC "EMA_12") (colOf mvaOutC "EMA_26")
      (colOf mvaOutC "SMA_Cross_20_50") (colOf mvaOutC "EMA_Cross_12_26")
      (by decide) (by decide) (by decide) (by decide) (by decide) (by decide)⟩

/-- C5: after `add_momentum_indicators`, on every row where both MACD and
MACD_Signal are defined, MACD_Diff equals exactly MACD minus MACD_Signal. -/
theorem c5_macd_diff_is_difference (df : DataFrame) (close high low : List Value)
    (hc : df.getCol "Close" = some close) (hh : df.getCol "High" = some high)
    (hl : df.getCol "Low" = some low) :
    ∀ df', add_momentum_indicators df = some df' →
    ∀ m s d, df'.getCol "MACD" = some m → df'.getCol "MACD_Signal" = some s →
      df'.getCol "MACD_Diff" = some d →
      ∀ i a b, m.getD i none = some a → s.getD i none = some b →
        d.getD i none = some (a - b) := by
  intro df' h m s d hm hs hd i a b ha hb
  obtain rfl : setCols df (momCols close high low) = df' :=
    Option.some.inj ((mom_eq df _ _ _ hc hh hl).symm.trans h)
  rw [getCol_mom df _ _ _ "MACD" _ rfl] at hm
  rw [getCol_mom df _ _ _ "MACD_Signal" _ rfl] at hs
  rw [getCol_mom df _ _ _ "MACD_Diff" _ rfl] at hd
  obtain rfl : macdLine close = m := Option.some.inj hm
  obtain rfl : macdSignal close = s := Option.some.inj hs
  obtain rfl : macdDiff close = d := Option.some.inj hd
  have hia := getD_lt_of_some _ _ _ ha
  have hib := getD_lt_of_some _ _ _ hb
  rw [macdDiff, zipW, zipWith_getD _ _ _ i hia hib, ha, hb]
  rfl

theorem c5_macd_diff_is_difference_w :
    df50.getCol "Close" = some (cs50.map some) ∧
      df50.getCol "High" = some ((cs50.map (· + 1)).map some) ∧
      df50.getCol "Low" = some ((cs50.map (· - 1)).map some) ∧
      add_momentum_indicators df50 = some momOut50 ∧
      momOut50.getCol "MACD" = some (colOf momOut50 "MACD") ∧
      momOut50.getCol "MACD_Signal" = some (colOf momOut50 "MACD_Signal") ∧
      momOut50.getCol "MACD_Diff" = some (colOf momOut50 "MACD_Diff") ∧
      (colOf momOut50 "MACD").getD 40 none = some macd40 ∧
      (colOf momOut50 "MACD_Signal").getD 40 none = some sig40 ∧
      (colOf momOut50 "MACD_Diff").getD 40 none = some (macd40 - sig40) :=
  ⟨by decide, by decide, by decide, by decide, by decide, by decide, by decide,
    by decide, by decide,
    c5_macd_diff_is_difference df50 (cs50.map some) ((cs50.map (· + 1)).map some)
      ((cs50.map (· - 1)).map some) (by decide) (by decide) (by decide)
      momOut50 (by decide) (colOf momOut50 "MACD") (colOf momOut50 "MACD_Signal")
      (colOf momOut50 "MACD_Diff") (by decide) (by decide) (by decide)
      40 macd40 sig40 (by decide) (by decide)⟩

/-- C7: after `add_volume_indicators` on a table with an all-defined Volume
column, Volume_SMA_20 is the 20-period rolling mean of Volume; on every row
Volume_Ratio is the NaN-propagating quotient of Volume by Volume_SMA_20, so
it is NaN for `i < 19`, and for `19 ≤ i < n` it equals the volume divided
by the mean of the last twenty volumes. -/
theorem c7_volume_ratio_def (df : DataFrame) (close : List Value) (vm : List ℚ)
    (hc : df.getCol "Close" = some close)
    (hv : df.getCol "Volume" = some (vm.map some)) :
    ∀ df', add_volume_indicators df = some df' →
    ∀ sma ratio, df'.getCol "Volume_SMA_20" = some sma →
      df'.getCol "Volume_Ratio" = some ratio →
      sma = rollingMean 20 (vm.map some) ∧
      (∀ i, i < vm.length →
        ratio.getD i none = optDiv ((vm.map some).getD i none) (sma.getD i none)) ∧
      (∀ i, i < 19 → sma.getD i none = none ∧ ratio.getD i none = none) ∧
      (∀ i, 19 ≤ i → i < vm.length →
        ratio.getD i none =
          some ((vm.getD i 0) / ((((vm.drop (i - 19)).take 20).sum) / 20))) := by
  intro df' h sma ratio hsma hratio
  obtain rfl : setCols df (volCols close (vm.map some)) = df' :=
    Option.some.inj ((vol_eq df _ _ hc hv).symm.trans h)
  rw [getCol_vol df _ _ "Volume_SMA_20" _ rfl] at hsma
  rw [getCol_vol df _ _ "Volume_Ratio" _ rfl] at hratio
  obtain rfl : rollingMean 20 (vm.map some) = sma := Option.some.inj hsma
  obtain rfl : zipW optDiv (vm.map some) (rollingMean 20 (vm.map some)) = ratio :=
    Option.some.inj hratio
  have hptw : ∀ i, i < vm.length →
      (zipW optDiv (vm.map some) (rollingMean 20 (vm.map some))).getD i none =
        optDiv ((vm.map some).getD i none)
          ((rollingMean 20 (vm.map some)).getD i none) := by
    intro i hi
    rw [zipW]
    exact zipWith_getD _ _ _ i (by simpa using hi) (by simpa using hi)
  refine ⟨rfl, hptw, ?_, ?_⟩
  · intro i hi
    have hs : (rollingMean 20 (vm.map some)).getD i none = none :=
      rollingApply_getD_front 20 _ _ i (by omega)
    refine ⟨hs, ?_⟩
    by_cases hil : i < vm.length
    · rw [hptw i hil, hs, optDiv_none_right]
    · exact List.getD_eq_default _ _ (by simp [zipW]; omega)
  · intro i h19 hil
    rw [hptw i hil, map_some_getD vm i hil, rollingMean,
      rollingApply_getD_full 20 _ vm i (by omega) hil,
      show i + 1 - 20 = i - 19 by omega]
    norm_num [optDiv, optBin]

theorem c7_volume_ratio_def_w :
    df50.getCol "Close" = some (cs50.map some) ∧
      df50.getCol "Volume" = some (vm50.map some) ∧
      add_volume_indicators df50 = some volOut50 ∧
      volOut50.getCol "Volume_SMA_20" = some (colOf volOut50 "Volume_SMA_20") ∧
      volOut50.getCol "Volume_Ratio" = some (colOf volOut50 "Volume_Ratio") ∧
      (colOf volOut50 "Volume_Ratio").getD 18 none = none ∧
      (colOf volOut50 "Volume_Ratio").getD 19 none = some (40/21) ∧
      (colOf volOut50 "Volume_SMA_20") = rollingMean 20 (vm50.map some) ∧
      (∀ i, i < vm50.length →
        (colOf volOut50 "Volume_Ratio").getD i none =
          optDiv ((vm50.map some).getD i none)
            ((colOf volOut50 "Volume_SMA_20").getD i none)) ∧
      (∀ i, i < 19 →
        (colOf volOut50 "Volume_SMA_20").getD i none = none ∧
          (colOf volOut50 "Volume_Ratio").getD i none = none) ∧
      (∀ i, 19 ≤ i → i < vm50.length →
        (colOf volOut50 "Volume_Ratio").getD i none =
          some ((vm50.getD i 0) / ((((vm50.drop (i - 19)).take 20).sum) / 20))) :=
  ⟨by decide, by decide, by decide, by decide, by decide, by decide, by decide,
    (c7_volume_ratio_def df50 (cs50.map some) vm50 (by decide) (by decide)
      volOut50 (by decide) (colOf volOut50 "Volume_SMA_20")
      (colOf volOut50 "Volume_Ratio") (by decide) (by decide)).1,
    (c7_volume_ratio_def df50 (cs50.map some) vm50 (by decide) (by decide)
      volOut50 (by decide) (colOf volOut50 "Volume_SMA_20")
      (colOf volOut50 "Volume_Ratio") (by decide) (by decide)).2⟩

/-- A session run started with distinct caller and builder cells keeps the
caller's cell untouched. -/
theorem run_keeps (sq : ℚ → ℚ) (ps : List Pass) :
    ∀ (s : Session) (df : DataFrame), s.caller = 0 → s.bref = 1 →
      s.heap[0]? = some df →
      ∀ s', Session.run sq ps s = some s' →
        s'.caller = 0 ∧ s'.heap[0]? = some df := by
  induction ps with
  | nil =>
    intro s df h0 h1 hh s' h
    obtain rfl : s = s' := Option.some.inj h
    exact ⟨h0, hh⟩
  | cons p ps ih =>
    intro s df h0 h1 hh s' h
    rw [Session.run] at h
    cases hstep : Session.step sq p s with
    | none => rw [hstep] at h; cases h
    | some s1 =>
      rw [hstep] at h
      have hinv : s1.caller = 0 ∧ s1.bref = 1 ∧ s1.heap[0]? = some df := by
        rw [Session.step] at hstep
        cases hget : s.heap[s.bref]? with
        | none => rw [hget] at hstep; cases hstep
        | some d =>
          rw [hget] at hstep
          replace hstep : (runPass sq p d).map
              (fun d' => (⟨s.heap.set s.bref d', s.caller, s.bref⟩ : Session)) =
                some s1 := hstep
          cases hrun : runPass sq p d with
          | none => rw [hrun] at hstep; cases hstep
          | some d' =>
            rw [hrun] at hstep
            rw [Option.map_some'] at hstep
            obtain rfl : (⟨s.heap.set s.bref d', s.caller, s.bref⟩ : Session) = s1 :=
              Option.some.inj hstep
            refine ⟨h0, h1, ?_⟩
            show (s.heap.set s.bref d')[0]? = some df
            rw [h1, List.getElem?_set_ne (by omega), hh]
      exact ih s1 df hinv.1 hinv.2.1 hinv.2.2 s' h

/-- C2: the constructor copies the caller's table into the builder's own
cell (`self.df = df.copy()`), so however many enrichment passes the
builder runs, the caller's table — its rows, columns and values — is
exactly the table it started with. -/
theorem c2_caller_table_unchanged (sq : ℚ → ℚ) (ps : List Pass) (df : DataFrame) :
    (Session.start df).bref ≠ (Session.start df).caller ∧
    (Session.start df).heap[(Session.start df).caller]? = some df ∧
    (Session.start df).heap[(Session.start df).bref]? = some df.copy ∧
    ∀ s', Session.run sq ps (Session.start df) = some s' →
      s'.caller = 0 ∧ s'.heap[s'.caller]? = some df := by
  refine ⟨by simp [Session.start], rfl, rfl, fun s' h => ?_⟩
  obtain ⟨hc, hh⟩ := run_keeps sq ps (Session.start df) df rfl rfl rfl s' h
  exact ⟨hc, by rw [hc]; exact hh⟩

theorem c2_caller_table_unchanged_w :
    Session.run sq0 allPasses (Session.start dfB) = some sessionOut ∧
      (sessionOut.caller = 0 ∧
        sessionOut.heap[sessionOut.caller]? = some dfB) :=
  ⟨by decide,
    (c2_caller_table_unchanged sq0 allPasses dfB).2.2.2 sessionOut (by decide)⟩

/-- C8 (counterexample): `add_volume_indicators` succeeds and creates all
four volume columns on a table on which `add_moving_averages` was never
run (no SMA column exists), and running the moving-average pass first
leaves its Volume_Ratio output unchanged — so the volume pass does not
require columns produced by the moving-average pass. -/
theorem c8_counterexample :
    (add_volume_indicators dfv1).map
        (fun d => (d.hasCol "OBV", d.hasCol "Volume_SMA_10",
          d.hasCol "Volume_SMA_20", d.hasCol "Volume_Ratio")) =
      some (true, true, true, true) ∧
    dfv1.hasCol "SMA_20" = false ∧ dfv1.hasCol "SMA_50" = false ∧
    ((add_moving_averages dfv1).bind add_volume_indicators).bind
        (fun d => d.getCol "Volume_Ratio") =
      (add_volume_indicators dfv1).bind (fun d => d.getCol "Volume_Ratio") :=
  ⟨by decide, by decide, by decide, by decide⟩

/-- C8 (amended): the passes may be invoked in any order — no pass reads a
column created by any pass (each reads only the input's High, Low, Close
and Volume columns), so running any pass `q` before a pass `p` changes
neither whether `p` succeeds nor any column `p` creates; in particular
`add_volume_indicators` does not require `add_moving_averages`, as it
computes its own volume moving averages from the input Volume column. -/
theorem c8_passes_order_free (sq : ℚ → ℚ) (p q : Pass) (df dfq : DataFrame)
    (hq : runPass sq q df = some dfq) :
    (runPass sq p dfq).isSome = (runPass sq p df).isSome ∧
    ∀ n ∈ createdNames p,
      (runPass sq p dfq).bind (fun d => d.getCol n) =
        (runPass sq p df).bind (fun d => d.getCol n) := by
  rw [runPass_eq_spec] at hq
  obtain ⟨lq, hlq, rfl⟩ : ∃ lq, passSpec sq q df = some lq ∧ dfq = setCols df lq := by
    cases hspec : passSpec sq q df with
    | none => rw [hspec] at hq; cases hq
    | some l =>
      rw [hspec] at hq
      exact ⟨l, rfl, (Option.some.inj hq).symm⟩
  have hbase : ∀ b ∈ baseNames, (setCols df lq).getCol b = df.getCol b := by
    intro b hb
    rcases passSpecNames sq q df lq hlq with hnames | ⟨_, rfl, _⟩
    · refine getCol_setCols_skip _ _ _ (lookupC_eq_none _ _ ?_)
      rw [hnames]
      exact not_mem_of_all_not_contains (base_not_created q) hb
    · rfl
  have hext : passSpec sq p (setCols df lq) = passSpec sq p df :=
    passSpec_ext sq p _ _ (hbase "High" (by simp [baseNames]))
      (hbase "Low" (by simp [baseNames])) (hbase "Close" (by simp [baseNames]))
      (hbase "Volume" (by simp [baseNames]))
  constructor
  · rw [runPass_eq_spec, runPass_eq_spec, hext]
    cases passSpec sq p df <;> rfl
  · intro n hn
    rw [runPass_eq_spec, runPass_eq_spec, hext]
    cases hp : passSpec sq p df with
    | none => rfl
    | some lp =>
      rw [Option.map_some', Option.map_some', Option.some_bind, Option.some_bind]
      rcases passSpecNames sq p df lp hp with hnames | ⟨hpv, rfl, hnovol⟩
      · have hmem : n ∈ namesOf lp := by rw [hnames]; exact hn
        obtain ⟨xs, hxs⟩ := lookupC_isSome_of_mem lp n hmem
        have hnodup : (namesOf lp).Nodup := by
          rw [hnames]; exact createdNames_nodup p
        rw [getCol_setCols_lookup lp _ n xs hnodup hxs,
          getCol_setCols_lookup lp _ n xs hnodup hxs]
      · rw [setCols, setCols]
        subst hpv
        rcases passSpecNames sq q df lq hlq with hqnames | ⟨_, rfl, _⟩
        · refine getCol_setCols_skip _ _ _ (lookupC_eq_none _ _ ?_)
          rw [hqnames]
          rcases created_disjoint_bool .volume q with hqq | hdisj
          · exfalso
            subst hqq
            have h0 : passSpec sq Pass.volume df = some [] := by
              rw [passSpec, hnovol]
              rfl
            rw [h0] at hlq
            obtain rfl : ([] : List (String × List Value)) = lq :=
              Option.some.inj hlq
            exact absurd hqnames.symm (by decide)
          · exact not_mem_of_all_not_contains hdisj hn
        · rfl

theorem c8_passes_order_free_w :
    runPass sq0 .movingAverages dfB = some mvaOutB ∧
      ((runPass sq0 .volume mvaOutB).isSome = (runPass sq0 .volume dfB).isSome ∧
        ∀ n ∈ createdNames .volume,
          (runPass sq0 .volume mvaOutB).bind (fun d => d.getCol n) =
            (runPass sq0 .volume dfB).bind (fun d => d.getCol n)) :=
  ⟨by decide,
    c8_passes_order_free sq0 .volume .movingAverages dfB mvaOutB (by decide)⟩

/-- A successful pass can only add columns whose names it registered or
creates. -/
theorem registry_case (sq : ℚ → ℚ) (p : Pass) (g : GoldFeatureEngineering)
    (d : DataFrame) (hp : runPass sq p g.df = some d) :
    ∀ n, d.hasCol n = true → g.df.hasCol n = true ∨ n ∈ createdNames p := by
  rw [runPass_eq_spec] at hp
  cases hspec : passSpec sq p g.df with
  | none => rw [hspec] at hp; cases hp
  | some l =>
    rw [hspec] at hp
    obtain rfl : setCols g.df l = d := Option.some.inj hp
    intro n hn
    rcases (hasCol_setCols l g.df n).mp hn with hmem | hbase
    · rcases passSpecNames sq p g.df l hspec with hnames | ⟨_, rfl, _⟩
      · exact Or.inr (hnames ▸ hmem)
      · exact absurd hmem (List.not_mem_nil n)
    · exact Or.inl hbase

/-- C9 (counterexample): `add_moving_averages` adds the column
SMA_Cross_20_50 to the builder's table but does not append its name to
`features_created`. -/
theorem c9_counterexample :
    (GoldFeatureEngineering.step sq0 .movingAverages
        (GoldFeatureEngineering.init dfC)).map
      (fun g => (g.df.hasCol "SMA_Cross_20_50",
        g.features_created.contains "SMA_Cross_20_50")) = some (true, false) := by
  decide

/-- C9 (amended): every pass returns no value beyond mutating the builder's
table and registry; it appends to the registry the names of the feature
columns it registers, and every column it adds to the table is either
registered or one of the two cross-signal columns SMA_Cross_20_50 and
EMA_Cross_12_26, which `add_moving_averages` adds without registering. -/
theorem c9_registry_covers_new_columns (sq : ℚ → ℚ) (p : Pass)
    (g g' : GoldFeatureEngineering)
    (h : GoldFeatureEngineering.step sq p g = some g') :
    (∃ app, g'.features_created = g.features_created ++ app) ∧
    ∀ n, g'.df.hasCol n = true →
      g.df.hasCol n = true ∨ n ∈ g'.features_created ∨
        n = "SMA_Cross_20_50" ∨ n = "EMA_Cross_12_26" := by
  cases p with
  | movingAverages =>
    rw [GoldFeatureEngineering.step] at h
    cases hp : add_moving_averages g.df with
    | none => rw [hp] at h; cases h
    | some d =>
      rw [hp, Option.map_some'] at h
      obtain rfl : (⟨d, g.features_created ++ mvaRegistered⟩ :
          GoldFeatureEngineering) = g' := Option.some.inj h
      refine ⟨⟨mvaRegistered, rfl⟩, fun n hn => ?_⟩
      rcases registry_case sq .movingAverages g d hp n hn with hbase | hmem
      · exact Or.inl hbase
      · rw [createdNames] at hmem
        rcases List.mem_append.mp hmem with hr | hcross
        · exact Or.inr (Or.inl (List.mem_append_right _ hr))
        · simp only [List.mem_cons, List.not_mem_nil, or_false] at hcross
          rcases hcross with rfl | rfl
          · exact Or.inr (Or.inr (Or.inl rfl))
          · exact Or.inr (Or.inr (Or.inr rfl))
  | momentum =>
    rw [GoldFeatureEngineering.step] at h
    cases hp : add_momentum_indicators g.df with
    | none => rw [hp] at h; cases h
    | some d =>
      rw [hp, Option.map_some'] at h
      obtain rfl : (⟨d, g.features_created ++ momRegistered⟩ :
          GoldFeatureEngineering) = g' := Option.some.inj h
      refine ⟨⟨momRegistered, rfl⟩, fun n hn => ?_⟩
      rcases registry_case sq .momentum g d hp n hn with hbase | hmem
      · exact Or.inl hbase
      · rw [createdNames] at hmem
        exact Or.inr (Or.inl (List.mem_append_right _ hmem))
  | volatility =>
    rw [GoldFeatureEngineering.step] at h
    cases hp : add_volatility_indicators sq g.df with
    | none => rw [hp] at h; cases h
    | some d =>
      rw [hp, Option.map_some'] at h
      obtain rfl : (⟨d, g.features_created ++ volatRegistered⟩ :
          GoldFeatureEngineering) = g' := Option.some.inj h
      refine ⟨⟨volatRegistered, rfl⟩, fun n hn => ?_⟩
      rcases registry_case sq .volatility g d hp n hn with hbase | hmem
      · exact Or.inl hbase
      · rw [createdNames] at hmem
        exact Or.inr (Or.inl (List.mem_append_right _ hmem))
  | volume =>
    rw [GoldFeatureEngineering.step] at h
    by_cases hv : g.df.hasCol "Volume"
    · rw [if_pos hv] at h
      cases hp : add_volume_indicators g.df with
      | none => rw [hp] at h; cases h
      | some d =>
        rw [hp, Option.map_some'] at h
        obtain rfl : (⟨d, g.features_created ++ volRegistered⟩ :
            GoldFeatureEngineering) = g' := Option.some.inj h
        refine ⟨⟨volRegistered, rfl⟩, fun n hn => ?_⟩
        rcases registry_case sq .volume g d hp n hn with hbase | hmem
        · exact Or.inl hbase
        · rw [createdNames] at hmem
          exact Or.inr (Or.inl (List.mem_append_right _ hmem))
    · rw [if_neg hv] at h
      obtain rfl : g = g' := Option.some.inj h
      exact ⟨⟨[], by simp⟩, fun n hn => Or.inl hn⟩

theorem c9_registry_covers_new_columns_w :
    GoldFeatureEngineering.step sq0 .volume gC = some gC ∧
      ((∃ app, gC.features_created = gC.features_created ++ app) ∧
        ∀ n, gC.df.hasCol n = true →
          gC.df.hasCol n = true ∨ n ∈ gC.features_created ∨
            n = "SMA_Cross_20_50" ∨ n = "EMA_Cross_12_26") :=
  ⟨by decide, c9_registry_covers_new_columns sq0 .volume gC gC (by decide)⟩

end GoldFE
